import Mathlib

/-!
Verification development for the KOS per-node connection agent
(`staging/kos/pkg/controllers/connectionagent/connectionagent.go`) and the
network-fabric data types it drives
(`staging/kos/pkg/networkfabric`, declarations of `LocalNetIfc` / `RemoteNetIfc`).

The Go code is shallowly embedded: every stateful method of `ConnectionAgent`
becomes a pure function on an explicit `AgentState`; the Go maps guarded by
mutexes become association lists; calls into the network fabric and into the
object store are recorded in an explicit action trace, with their outcomes
supplied by an environment (`FabricEnv`, `StoreUpdateResult`).  Machine bytes
are `Nat` with explicit `% 256` / masking where the Go code converts to `byte`.
-/

namespace KosCA

/-! ### Association-list maps

The agent's mutex-guarded Go maps (`nsnToLocalIfc`, `nsnToRemoteIfc`,
`vniToVnState`, `nsnToVNStateVNI`, `nsnToVNIs`) are embedded as association
lists with at most one binding per key, which keeps every lookup computable. -/

def alookup [DecidableEq α] (m : List (α × β)) (a : α) : Option β :=
  (m.find? (fun p => p.1 = a)).map (·.2)

def adel [DecidableEq α] (m : List (α × β)) (a : α) : List (α × β) :=
  m.filter (fun p => p.1 ≠ a)

def aset [DecidableEq α] (m : List (α × β)) (a : α) (b : β) : List (α × β) :=
  (a, b) :: adel m a

theorem alookup_nil [DecidableEq α] (a : α) : alookup ([] : List (α × β)) a = none := rfl

theorem alookup_cons [DecidableEq α] (k : α) (v : β) (m : List (α × β)) (a : α) :
    alookup ((k, v) :: m) a = if k = a then some v else alookup m a := by
  by_cases h : k = a <;> simp [alookup, List.find?, h]

theorem adel_cons [DecidableEq α] (k : α) (v : β) (m : List (α × β)) (a : α) :
    adel ((k, v) :: m) a = if k = a then adel m a else (k, v) :: adel m a := by
  by_cases h : k = a <;> simp [adel, h]

theorem alookup_adel [DecidableEq α] (m : List (α × β)) (a c : α) :
    alookup (adel m a) c = if c = a then none else alookup m c := by
  induction m with
  | nil => by_cases h : c = a <;> simp [alookup_nil, adel, h]
  | cons p t ih =>
    obtain ⟨k, v⟩ := p
    rw [adel_cons]
    by_cases hk : k = a
    · subst hk
      rw [if_pos rfl, ih, alookup_cons]
      by_cases hc : c = k
      · simp [hc]
      · have : ¬ k = c := fun h => hc h.symm
        simp [hc, this]
    · rw [if_neg hk, alookup_cons, alookup_cons, ih]
      by_cases hc : k = c
      · subst hc
        simp [hk]
      · simp [hc]

theorem alookup_aset [DecidableEq α] (m : List (α × β)) (a : α) (b : β) (c : α) :
    alookup (aset m a b) c = if c = a then some b else alookup m c := by
  rw [aset, alookup_cons, alookup_adel]
  by_cases h : a = c
  · subst h; simp
  · have : ¬ c = a := fun hc => h hc.symm
    simp [h, this]

/-- Membership of values: every binding in `aset m a b` is either `(a, b)` or a
binding of `m`. -/
theorem mem_aset [DecidableEq α] {m : List (α × β)} {a : α} {b : β} {p : α × β}
    (h : p ∈ aset m a b) : p = (a, b) ∨ p ∈ m := by
  rcases List.mem_cons.mp h with h' | h'
  · exact Or.inl h'
  · exact Or.inr (List.mem_of_mem_filter h')

theorem mem_adel [DecidableEq α] {m : List (α × β)} {a : α} {p : α × β}
    (h : p ∈ adel m a) : p ∈ m := List.mem_of_mem_filter h

/-! ### Basic data: IPv4 addresses, namespaced names, MAC addresses

`gonet.IP` values reaching the agent are IPv4; `To4()` yields their four
bytes, embedded here as four `Nat` fields (byte-ranged where a theorem needs
it).  Optional IPs (`nil` in Go, `""` status strings) are `Option IPv4`. -/

structure IPv4 where
  b0 : Nat
  b1 : Nat
  b2 : Nat
  b3 : Nat
deriving DecidableEq, Repr

/-- Embeds `k8stypes.NamespacedName`. -/
structure NSN where
  ns : String
  name : String
deriving DecidableEq, Repr

/-- The lowercase hexadecimal digits, as in Go's `net` package constant
`hexDigit = "0123456789abcdef"`. -/
def hexChars : List Char := "0123456789abcdef".data

def hexDigitChar (n : Nat) : Char := hexChars.getD n '0'

/-- The two lowercase hex characters of one byte, as Go's
`net.HardwareAddr.String` emits them: `hexDigit[b>>4]`, `hexDigit[b&0xF]`. -/
def byteHexChars (b : Nat) : List Char := [hexDigitChar (b >>> 4), hexDigitChar (b &&& 15)]

/-- Character content of `net.HardwareAddr.String()`: hex pairs for each byte,
with a `':'` before every byte but the first. -/
def macStringChars : List Nat → List Char
  | [] => []
  | b :: rest => byteHexChars b ++ rest.flatMap (fun c => ':' :: byteHexChars c)

/-- Embeds `net.HardwareAddr.String()` for a MAC given as its list of bytes. -/
def macString (mac : List Nat) : String := String.mk (macStringChars mac)

/-- Embeds `strings.Replace(s, ":", "", -1)`: with a one-character pattern and an
empty replacement this removes every colon of `s`. -/
def removeColons (s : String) : String := String.mk (s.data.filter (fun c => c ≠ ':'))

/-- Embeds `generateMACAddr` from `connectionagent.go`: Go's `byte(e)` conversions
are `% 256`; `&`, `|`, `<<`, `>>` are the `Nat` bitwise operations.  The
source fills `mac[5]` down to `mac[0]`; the list below is the same six bytes
in index order. -/
def generateMACAddr (vni : Nat) (guestIPv4 : IPv4) : List Nat :=
  [(((vni >>> 13) % 256) &&& 0xF8) ||| ((guestIPv4.b0 &&& 0x02) <<< 1) ||| 2,
   guestIPv4.b1,
   guestIPv4.b2,
   guestIPv4.b3,
   (vni >>> 8) % 256,
   vni % 256]

/-- Embeds `generateIfcName` from `connectionagent.go`:
`"kos" + strings.Replace(macAddr.String(), ":", "", -1)`. -/
def generateIfcName (macAddr : List Nat) : String :=
  "kos" ++ removeColons (macString macAddr)

/-- Index key computed by the `attachmentMACAddr` index function of
`connectionagent.go` for an attachment with the given VNI and guest IP:
`generateMACAddr(att.Status.AddressVNI, ParseIP(att.Status.IPv4)).String()`. -/
def attachmentMACKey (vni : Nat) (ipv4 : IPv4) : String :=
  macString (generateMACAddr vni ipv4)

/-! Facts about the hex rendering used by claim C5. -/

/-- The hex characters of a MAC, bytewise, with no separators. -/
def macHexConcat (mac : List Nat) : List Char := (mac.map byteHexChars).flatten

theorem hexDigitChar_mem (n : Nat) : hexDigitChar n ∈ hexChars := by
  rw [hexDigitChar]
  by_cases h : n < hexChars.length
  · rw [List.getD_eq_getElem _ _ h]
    exact List.getElem_mem h
  · rw [List.getD_eq_default _ _ (Nat.le_of_not_lt h)]
    decide

theorem hexDigitChar_ne_colon (n : Nat) : hexDigitChar n ≠ ':' := by
  have h := hexDigitChar_mem n
  intro hc
  rw [hc] at h
  revert h
  decide

theorem byteHexChars_filter (b : Nat) :
    (byteHexChars b).filter (fun c => c ≠ ':') = byteHexChars b := by
  simp [byteHexChars, hexDigitChar_ne_colon]

/-- Removing the colons of `HardwareAddr.String()` leaves exactly the
concatenated hex pairs of the bytes. -/
theorem macStringChars_filter (mac : List Nat) :
    (macStringChars mac).filter (fun c => c ≠ ':') = macHexConcat mac := by
  cases mac with
  | nil => rfl
  | cons b rest =>
    rw [macStringChars, macHexConcat, List.filter_append, byteHexChars_filter]
    congr 1
    induction rest with
    | nil => rfl
    | cons c t ih =>
      rw [List.flatMap_cons, List.filter_append, List.map_cons, List.flatten_cons]
      simp only [List.filter_cons]
      rw [byteHexChars_filter, ih]
      norm_num

theorem generateIfcName_eq (mac : List Nat) :
    generateIfcName mac = "kos" ++ String.mk (macHexConcat mac) := by
  rw [generateIfcName, macString, removeColons]
  congr 1
  exact congrArg String.mk (macStringChars_filter mac)

/-! ### Network fabric data types

`pkg/networkfabric` declares `LocalNetIfc` and `RemoteNetIfc`.  The field set
below is the union of the declaration in the fabric contract file (which lists
`Name`, `VNI`, `GuestMAC`, `GuestIP` for local and `VNI`, `GuestMAC`,
`GuestIP`, `HostIP` for remote) and the fields the connection agent
dereferences (`oldLocalIfc.HostIP`).  Go composite literals leave unnamed
fields at their zero value; for `net.IP` that is `nil`, i.e. `none` here. -/

structure LocalNetIfc where
  Name : String
  VNI : Nat
  GuestMAC : List Nat
  GuestIP : Option IPv4
  HostIP : Option IPv4
deriving DecidableEq, Repr

structure RemoteNetIfc where
  VNI : Nat
  GuestMAC : List Nat
  GuestIP : Option IPv4
  HostIP : Option IPv4
deriving DecidableEq, Repr

/-- Embeds `ifcNeedsUpdate` from `connectionagent.go`:
`!ifcHostIP.Equal(newHostIP) || !bytes.Equal(ifcMAC, newMAC)`. -/
def ifcNeedsUpdate (ifcHostIP newHostIP : Option IPv4) (ifcMAC newMAC : List Nat) : Bool :=
  ifcHostIP ≠ newHostIP || ifcMAC ≠ newMAC

/-! ### NetworkAttachment objects (`pkg/apis/network/v1alpha1/types.go`)

Only the fields the agent reads or writes are structural; the remaining
status/metadata fields are carried opaquely so that frame conditions (claim
C8) can be stated.  Status strings holding IPs are `Option IPv4` (`""` is
`none`); `Status.IPv4` is a plain `IPv4` because every cache feeding the agent
filters on `status.ipv4 != ""`. -/

structure ObjectMeta where
  ns : String
  name : String
  uid : String
  resourceVersion : String
deriving DecidableEq, Repr

structure NetworkAttachmentSpec where
  node : String
  subnet : String
  postCreateExec : List String
  postDeleteExec : List String
deriving DecidableEq, Repr

structure NetworkAttachmentErrors where
  ipam : List String
  host : List String
deriving DecidableEq, Repr

structure NetworkAttachmentStatus where
  errors : NetworkAttachmentErrors
  lockUID : String
  addressVNI : Nat
  ipv4 : IPv4
  macAddress : String
  ifcName : String
  hostIP : Option IPv4
  postCreateExecReport : Option String
deriving DecidableEq, Repr

structure NetworkAttachment where
  meta : ObjectMeta
  spec : NetworkAttachmentSpec
  status : NetworkAttachmentStatus
deriving DecidableEq, Repr

/-- Embeds `kosctlrutils.AttNSN`. -/
def AttNSN (att : NetworkAttachment) : NSN := ⟨att.meta.ns, att.meta.name⟩

/-- Index key of the `attachmentMACAddr` index function for an attachment. -/
def attMACKeyOf (att : NetworkAttachment) : String :=
  attachmentMACKey att.status.addressVNI att.status.ipv4

/-! ### Agent state and environments -/

/-- Embeds `vnState` from `connectionagent.go`.  The remote-attachments informer and
lister are environmental (their cache contents live in `Caches`); the stop
channel is represented by whether it has been closed.  `localAtts` and
`remoteAtts` are the Go string-sets, as duplicate-free lists. -/
structure VnState where
  ns : String
  stopChClosed : Bool
  localAtts : List String
  remoteAtts : List String
deriving DecidableEq, Repr

/-- Set-insert / set-remove on the Go map-as-set. -/
def listInsert (l : List String) (a : String) : List String :=
  if a ∈ l then l else l ++ [a]

def listErase (l : List String) (a : String) : List String :=
  l.filter (fun x => x ≠ a)

/-- The mutable maps of `ConnectionAgent`, plus the work queue contents.  The
queue is deduplicating (`k8sworkqueue`), so it is modeled as the set of
pending identities. -/
structure AgentState where
  vniToVnState : List (Nat × VnState)
  nsnToVNStateVNI : List (NSN × Nat)
  nsnToLocalIfc : List (NSN × LocalNetIfc)
  nsnToRemoteIfc : List (NSN × RemoteNetIfc)
  nsnToVNIs : List (NSN × List Nat)
  queue : List NSN
deriving DecidableEq, Repr

def initialAgentState : AgentState := ⟨[], [], [], [], [], []⟩

/-- Immutable agent configuration. -/
structure AgentConf where
  localNodeName : String
  hostIP : IPv4
deriving DecidableEq, Repr

/-- Contents of the informer caches.  `localGet nsn` is
`localAttsLister.NetworkAttachments(nsn.ns).Get(nsn.name)`;
`remoteGet vni ns name` is `vnState.remoteAttsLister.Get(name)` for the
vnState of `vni`, whose lister is scoped to namespace `ns`; `localList` and
`remoteList` are the full cache contents used by the startup sync (the MAC
index is computed from them).  A `none` lister result is the IsNotFound case;
other lister errors cannot arise from in-memory caches and are not modeled. -/
structure Caches where
  localGet : NSN → Option NetworkAttachment
  remoteGet : Nat → String → String → Option NetworkAttachment
  localList : List NetworkAttachment
  remoteList : Nat → List NetworkAttachment

/-- Outcomes of the network-fabric calls, supplied by the environment. -/
structure FabricEnv where
  createLocalOk : LocalNetIfc → Bool
  deleteLocalOk : LocalNetIfc → Bool
  createRemoteOk : RemoteNetIfc → Bool
  deleteRemoteOk : RemoteNetIfc → Bool

/-- The all-successful fabric environment. -/
def fabricOkEnv : FabricEnv := ⟨fun _ => true, fun _ => true, fun _ => true, fun _ => true⟩

/-- Outcome of the store `Update` call in `setAttStatus`. -/
inductive StoreUpdateResult where
  | ok
  | conflict
  | otherError
deriving DecidableEq, Repr

/-- Calls the agent makes against the fabric and the store, in order. -/
inductive Action where
  | createLocal (ifc : LocalNetIfc)
  | deleteLocal (ifc : LocalNetIfc)
  | createRemote (ifc : RemoteNetIfc)
  | deleteRemote (ifc : RemoteNetIfc)
  | storeUpdate (att : NetworkAttachment)
deriving DecidableEq, Repr

/-- What `processQueueItem` does with the item after processing it. -/
inductive QueueDecision where
  | forget
  | requeue
deriving DecidableEq, Repr

/-! ### Small accessors / mutators of `ConnectionAgent` (mutex-guarded map ops) -/

def getLocalIfc (st : AgentState) (nsn : NSN) : Option LocalNetIfc :=
  alookup st.nsnToLocalIfc nsn

def assignLocalIfc (st : AgentState) (nsn : NSN) (ifc : LocalNetIfc) : AgentState :=
  { st with nsnToLocalIfc := aset st.nsnToLocalIfc nsn ifc }

def unsetLocalIfc (st : AgentState) (nsn : NSN) : AgentState :=
  { st with nsnToLocalIfc := adel st.nsnToLocalIfc nsn }

def getRemoteIfc (st : AgentState) (nsn : NSN) : Option RemoteNetIfc :=
  alookup st.nsnToRemoteIfc nsn

def assignRemoteIfc (st : AgentState) (nsn : NSN) (ifc : RemoteNetIfc) : AgentState :=
  { st with nsnToRemoteIfc := aset st.nsnToRemoteIfc nsn ifc }

def unsetRemoteIfc (st : AgentState) (nsn : NSN) : AgentState :=
  { st with nsnToRemoteIfc := adel st.nsnToRemoteIfc nsn }

def getVNStateVNI (st : AgentState) (nsn : NSN) : Option Nat :=
  alookup st.nsnToVNStateVNI nsn

def setVNStateVNI (st : AgentState) (nsn : NSN) (vni : Nat) : AgentState :=
  { st with nsnToVNStateVNI := aset st.nsnToVNStateVNI nsn vni }

def unsetVNStateVNI (st : AgentState) (nsn : NSN) : AgentState :=
  { st with nsnToVNStateVNI := adel st.nsnToVNStateVNI nsn }

/-- Embeds `queue.Add`: the work queue deduplicates pending identities. -/
def queueAdd (st : AgentState) (nsn : NSN) : AgentState :=
  if nsn ∈ st.queue then st else { st with queue := st.queue ++ [nsn] }

/-! ### Ambiguity tracker (`nsnToVNIs`) -/

/-- Embeds `addVNI`: makes the entry if missing, then inserts the VNI. -/
def addVNI (st : AgentState) (nsn : NSN) (vni : Nat) : AgentState :=
  let attVNIs := (alookup st.nsnToVNIs nsn).getD []
  { st with nsnToVNIs := aset st.nsnToVNIs nsn (if vni ∈ attVNIs then attVNIs else attVNIs ++ [vni]) }

/-- Embeds `removeSeenInVNI`: no-op when the entry is missing; deletes the VNI from
the entry and drops the entry when it becomes empty. -/
def removeSeenInVNI (st : AgentState) (nsn : NSN) (vni : Nat) : AgentState :=
  match alookup st.nsnToVNIs nsn with
  | none => st
  | some attVNIs =>
    let attVNIs' := attVNIs.filter (fun v => v ≠ vni)
    if attVNIs'.length = 0 then
      { st with nsnToVNIs := adel st.nsnToVNIs nsn }
    else
      { st with nsnToVNIs := aset st.nsnToVNIs nsn attVNIs' }

/-- Embeds `getAttSeenInVNI`: returns `(onlyVNI, nbrOfVNIs)`.  `nbrOfVNIs` is the
size of the entry (0 when missing); `onlyVNI` is filled by ranging over the
entry only when the size is exactly 1, and is the zero value 0 otherwise. -/
def getAttSeenInVNI (st : AgentState) (nsn : NSN) : Nat × Nat :=
  match alookup st.nsnToVNIs nsn with
  | none => (0, 0)
  | some attVNIs => (if attVNIs.length = 1 then attVNIs.headD 0 else 0, attVNIs.length)

/-! ### VN-state lifecycle (`vniToVnState`) -/

/-- Embeds `initVNState`, restricted to the data the embedding tracks: the per-VNI
remote informer and lister are started in the environment; the new vnState
records the namespace, an open stop channel and empty att sets. -/
def initVNState (ns : String) : VnState :=
  { ns := ns, stopChClosed := false, localAtts := [], remoteAtts := [] }

/-- The two membership updates the local branch performs on a vnState:
`delete(vnState.remoteAtts, attName); vnState.localAtts[attName] = struct{}{}`. -/
def vnAddLocal (vns : VnState) (attName : String) : VnState :=
  { vns with remoteAtts := listErase vns.remoteAtts attName,
             localAtts := listInsert vns.localAtts attName }

/-- The two membership updates the remote branch performs on a vnState:
`vnState.remoteAtts[attName] = struct{}{}; delete(vnState.localAtts, attName)`. -/
def vnAddRemote (vns : VnState) (attName : String) : VnState :=
  { vns with remoteAtts := listInsert vns.remoteAtts attName,
             localAtts := listErase vns.localAtts attName }

/-- Embeds `updateVNStateForExistingAtt`.  Returns the state, `vnStateRet` (the
vnState detached for teardown, if any) and `noVnStateFoundForRemoteAtt`.
The Go `defer` then updates `nsnToVNStateVNI`: it sets the VNI when both
return values are trivial and unsets it otherwise. -/
def updateVNStateForExistingAtt (st : AgentState) (attNSN : NSN) (attIsLocal : Bool)
    (vni : Nat) : AgentState × Option VnState × Bool :=
  let attName := attNSN.name
  let core : AgentState × Option VnState × Bool :=
    if attIsLocal then
      let vns := (alookup st.vniToVnState vni).getD (initVNState attNSN.ns)
      ({ st with vniToVnState := aset st.vniToVnState vni (vnAddLocal vns attName) },
       none, false)
    else
      match alookup st.vniToVnState vni with
      | some vns =>
        let vns' := vnAddRemote vns attName
        if vns'.localAtts = [] then
          ({ st with vniToVnState := adel st.vniToVnState vni }, some vns', false)
        else
          ({ st with vniToVnState := aset st.vniToVnState vni vns' }, none, false)
      | none => (st, none, true)
  let (st1, vnStateRet, noVnStateFoundForRemoteAtt) := core
  let st2 :=
    if vnStateRet = none ∧ noVnStateFoundForRemoteAtt = false then
      setVNStateVNI st1 attNSN vni
    else
      unsetVNStateVNI st1 attNSN
  (st2, vnStateRet, noVnStateFoundForRemoteAtt)

/-- Embeds `removeAttFromVNState`: removes `attName` from the vnState of `vni`;
when the local set empties, the vnState leaves the map and is returned for
teardown (its remote set untouched in that branch). -/
def removeAttFromVNState (st : AgentState) (attName : String) (vni : Nat) :
    AgentState × Option VnState :=
  match alookup st.vniToVnState vni with
  | none => (st, none)
  | some vns =>
    let vns1 := { vns with localAtts := listErase vns.localAtts attName }
    if vns1.localAtts = [] then
      ({ st with vniToVnState := adel st.vniToVnState vni }, some vns1)
    else
      let vns2 := { vns1 with remoteAtts := listErase vns1.remoteAtts attName }
      ({ st with vniToVnState := aset st.vniToVnState vni vns2 }, none)

/-- One iteration of the teardown loop of `clearVNResources` for remote
attachment `name` of the virtual network: drop the VNI from the ambiguity
tracker and enqueue the identity. -/
def clearVNStep (ns : String) (vni : Nat) (st : AgentState) (name : String) : AgentState :=
  queueAdd (removeSeenInVNI st ⟨ns, name⟩ vni) ⟨ns, name⟩

/-- Embeds `clearVNResources`: closes the remote informer's stop channel and, for
every name in the vnState's remote set, removes the VNI from the tracker
entry and enqueues the identity.  Returns the updated state and the vnState
with its stop channel closed. -/
def clearVNResources (st : AgentState) (vns : VnState) (vni : Nat) :
    AgentState × VnState :=
  (vns.remoteAtts.foldl (clearVNStep vns.ns vni) st, { vns with stopChClosed := true })

/-- Embeds `updateVNStateAfterAttDeparture`. -/
def updateVNStateAfterAttDeparture (st : AgentState) (attName : String) (vni : Nat) :
    AgentState :=
  match removeAttFromVNState st attName vni with
  | (st1, some vns) => (clearVNResources st1 vns vni).1
  | (st1, none) => st1

/-- Embeds `updateVNState`: departs from the old VNI when it changed, then adds the
attachment to the vnState of its new VNI. -/
def updateVNState (conf : AgentConf) (st : AgentState) (attNewVNI : Nat) (attNSN : NSN)
    (attNode : String) : AgentState × Option VnState × Bool :=
  let st1 :=
    match getVNStateVNI st attNSN with
    | some attOldVNI =>
      if attOldVNI ≠ attNewVNI then
        unsetVNStateVNI (updateVNStateAfterAttDeparture st attNSN.name attOldVNI) attNSN
      else st
    | none => st
  updateVNStateForExistingAtt st1 attNSN (attNode = conf.localNodeName) attNewVNI

/-! ### The reconciler (`processQueueItem` and callees) -/

/-- Embeds `createOrUpdateIfc`.  Returns the state, the trace of fabric calls made,
and either the new local interface name (`""` when none was created) or the
error that aborted the operation.  The interface literals set exactly the
fields the source sets; `GuestIP` is not among them and stays at its zero
value `none`. -/
def createOrUpdateIfc (conf : AgentConf) (env : FabricEnv) (st : AgentState)
    (attGuestIP : IPv4) (attHostIP : Option IPv4) (attVNI : Nat) (attNSN : NSN) :
    AgentState × List Action × Except String String :=
  let attMAC := generateMACAddr attVNI attGuestIP
  let oldLocalIfc := getLocalIfc st attNSN
  let oldRemoteIfc := getRemoteIfc st attNSN
  let localNeeds : Bool :=
    match oldLocalIfc with
    | some l => ifcNeedsUpdate l.HostIP attHostIP l.GuestMAC attMAC
    | none => false
  let remoteNeeds : Bool :=
    match oldRemoteIfc with
    | some r => ifcNeedsUpdate r.HostIP attHostIP r.GuestMAC attMAC
    | none => false
  let newIfcNeedsToBeCreated : Bool :=
    (!oldLocalIfc.isSome && !oldRemoteIfc.isSome) || localNeeds || remoteNeeds
  if newIfcNeedsToBeCreated then
    -- delete the old interface, if any
    let delStep : AgentState × List Action × Option String :=
      match oldLocalIfc with
      | some l =>
        if env.deleteLocalOk l then (unsetLocalIfc st attNSN, [Action.deleteLocal l], none)
        else (st, [Action.deleteLocal l], some "update failed: old local interface could not be deleted")
      | none =>
        match oldRemoteIfc with
        | some r =>
          if env.deleteRemoteOk r then (unsetRemoteIfc st attNSN, [Action.deleteRemote r], none)
          else (st, [Action.deleteRemote r], some "update failed: old remote interface could not be deleted")
        | none => (st, [], none)
    match delStep with
    | (st1, acts, none) =>
      if attHostIP = some conf.hostIP then
        let newLocalIfc : LocalNetIfc :=
          { Name := generateIfcName attMAC, VNI := attVNI, GuestMAC := attMAC,
            GuestIP := none, HostIP := attHostIP }
        if env.createLocalOk newLocalIfc then
          (assignLocalIfc st1 attNSN newLocalIfc, acts ++ [Action.createLocal newLocalIfc],
           Except.ok newLocalIfc.Name)
        else
          (st1, acts ++ [Action.createLocal newLocalIfc],
           Except.error "creation of local network interface failed")
      else
        let newRemoteIfc : RemoteNetIfc :=
          { VNI := attVNI, GuestMAC := attMAC, GuestIP := none, HostIP := attHostIP }
        if env.createRemoteOk newRemoteIfc then
          (assignRemoteIfc st1 attNSN newRemoteIfc, acts ++ [Action.createRemote newRemoteIfc],
           Except.ok "")
        else
          (st1, acts ++ [Action.createRemote newRemoteIfc],
           Except.error "creation of remote network interface failed")
    | (st1, acts, some e) => (st1, acts, Except.error e)
  else
    (st, [], Except.ok "")

/-- The object `setAttStatus` sends to the store: a deep copy of `att` with
`Status.HostIP` set to this node's host IP and `Status.IfcName` set to the
given name. -/
def setAttStatusObj (conf : AgentConf) (att : NetworkAttachment) (ifcName : String) :
    NetworkAttachment :=
  { att with status := { att.status with hostIP := some conf.hostIP, ifcName := ifcName } }

/-- Embeds `processDeletedAtt`. -/
def processDeletedAtt (env : FabricEnv) (st : AgentState) (attNSN : NSN) :
    AgentState × List Action × Option String :=
  let st1 :=
    match getVNStateVNI st attNSN with
    | some vnStateVNI =>
      unsetVNStateVNI (updateVNStateAfterAttDeparture st attNSN.name vnStateVNI) attNSN
    | none => st
  match getLocalIfc st1 attNSN with
  | some localIfc =>
    if env.deleteLocalOk localIfc then
      (unsetLocalIfc st1 attNSN, [Action.deleteLocal localIfc], none)
    else
      (st1, [Action.deleteLocal localIfc], some "DeleteLocalIfc failed")
  | none =>
    match getRemoteIfc st1 attNSN with
    | some remoteIfc =>
      if env.deleteRemoteOk remoteIfc then
        (unsetRemoteIfc st1 attNSN, [Action.deleteRemote remoteIfc], none)
      else
        (st1, [Action.deleteRemote remoteIfc], some "DeleteRemoteIfc failed")
    | none => (st1, [], none)

/-- Embeds `processExistingAtt`.  The argument `updResp` is the store's answer to the status
`Update`, consulted only if the write-back is attempted. -/
def processExistingAtt (conf : AgentConf) (env : FabricEnv) (updResp : StoreUpdateResult)
    (st : AgentState) (att : NetworkAttachment) : AgentState × List Action × Option String :=
  let attNSN := AttNSN att
  let attVNI := att.status.addressVNI
  let attNode := att.spec.node
  match updateVNState conf st attVNI attNSN attNode with
  | (st1, some vnState, _) =>
    -- att is remote but was the last local attachment in its VN
    ((clearVNResources st1 vnState attVNI).1, [], none)
  | (st1, none, true) =>
    -- att is remote and its vnState vanished: treat as deleted
    let st2 := removeSeenInVNI st1 attNSN attVNI
    processDeletedAtt env st2 attNSN
  | (st1, none, false) =>
    let attHostIP : Option IPv4 :=
      if attNode = conf.localNodeName then some conf.hostIP else att.status.hostIP
    let attGuestIP := att.status.ipv4
    match createOrUpdateIfc conf env st1 attGuestIP attHostIP attVNI attNSN with
    | (st2, acts, Except.error e) => (st2, acts, some e)
    | (st2, acts, Except.ok newLocalIfcName) =>
      if attNode = conf.localNodeName ∧
          (att.status.hostIP ≠ some conf.hostIP ∨
            (newLocalIfcName ≠ "" ∧ newLocalIfcName ≠ att.status.ifcName)) then
        let att2 := setAttStatusObj conf att newLocalIfcName
        match updResp with
        | StoreUpdateResult.ok => (st2, acts ++ [Action.storeUpdate att2], none)
        | StoreUpdateResult.conflict =>
          (st2, acts ++ [Action.storeUpdate att2], some "Update conflict")
        | StoreUpdateResult.otherError =>
          (st2, acts ++ [Action.storeUpdate att2], some "Update failed")
      else
        (st2, acts, none)

/-- Embeds `getAttachment`: resolves the univocal version of the attachment.
The more-than-one-VNI case returns `(none, false)` directly.  In the switch
below it, only the one-cache cases return from inside a case; the
lookup-error case and the found-in-both-caches case merely log, and Go
continues after the switch at `return nil, true` — so a both-caches
attachment is reported as deleted, although the function's own doc comment
promises `deleted = false` for every ambiguous attachment. -/
def getAttachment (st : AgentState) (caches : Caches) (attNSN : NSN) :
    Option NetworkAttachment × Bool :=
  let (vni, nbrOfVNIs) := getAttSeenInVNI st attNSN
  if nbrOfVNIs > 1 then
    (none, false)
  else
    let attAsRemote : Option NetworkAttachment :=
      if nbrOfVNIs = 1 then
        match alookup st.vniToVnState vni with
        | some vns => caches.remoteGet vni vns.ns attNSN.name
        | none => none
      else none
    let attAsLocal : Option NetworkAttachment := caches.localGet attNSN
    match attAsLocal, attAsRemote with
    | some a, none => (some a, false)
    | none, some a => (some a, false)
    | _, _ => (none, true)

/-- Embeds `processNetworkAttachment`. -/
def processNetworkAttachment (conf : AgentConf) (caches : Caches) (env : FabricEnv)
    (updResp : StoreUpdateResult) (st : AgentState) (attNSN : NSN) :
    AgentState × List Action × Option String :=
  match getAttachment st caches attNSN with
  | (some att, _) => processExistingAtt conf env updResp st att
  | (none, true) => processDeletedAtt env st attNSN
  | (none, false) => (st, [], none)

/-- Embeds `processQueueItem`: processes the item and either `Forget`s it (success)
or requeues it with `AddRateLimited` (error). -/
def processQueueItem (conf : AgentConf) (caches : Caches) (env : FabricEnv)
    (updResp : StoreUpdateResult) (st : AgentState) (attNSN : NSN) :
    AgentState × List Action × Option String × QueueDecision :=
  let (st1, acts, err) := processNetworkAttachment conf caches env updResp st attNSN
  (st1, acts, err, if err.isSome then QueueDecision.requeue else QueueDecision.forget)

/-! ### Startup sync (`syncPreExistingLocalIfcs` / `syncPreExistingRemoteIfcs`)

Fabric deletions during the startup sync are retried every second until they
succeed, so the embedding records the delete call and proceeds as after the
successful attempt. -/

/-- Body of the loop of `syncPreExistingLocalIfcs` for one pre-existing local
interface: match it by MAC in the local cache; on a unique match bind it to
the owner (deleting a displaced previous binding), otherwise delete it. -/
def syncLocalStep (localCacheList : List NetworkAttachment)
    (acc : AgentState × List Action) (ifc : LocalNetIfc) : AgentState × List Action :=
  let (st, acts) := acc
  let ifcMAC := macString ifc.GuestMAC
  let ifcOwnerAtts := localCacheList.filter (fun att => attMACKeyOf att = ifcMAC)
  match ifcOwnerAtts with
  | [ifcOwnerAtt] =>
    let nsn := AttNSN ifcOwnerAtt
    let oldIfc := getLocalIfc st nsn
    let st1 := assignLocalIfc st nsn ifc
    match oldIfc with
    | some old => (st1, acts ++ [Action.deleteLocal old])
    | none => (st1, acts)
  | _ => (st, acts ++ [Action.deleteLocal ifc])

def syncPreExistingLocalIfcs (localCacheList : List NetworkAttachment)
    (preExistingLocalIfcs : List LocalNetIfc) (st : AgentState) :
    AgentState × List Action :=
  preExistingLocalIfcs.foldl (syncLocalStep localCacheList) (st, [])

/-- Body of the loop of `syncPreExistingRemoteIfcs` for one pre-existing
remote interface: look its MAC up in the remote cache of its VNI (when that
cache exists); on a unique match bind it to the owner — deleting a displaced
previous remote binding, or the fabric state of a stale local interface of
the same identity (note the source deletes that local interface through the
fabric without unregistering it from `nsnToLocalIfc`); otherwise delete it. -/
def syncRemoteStep (caches : Caches) (acc : AgentState × List Action)
    (ifc : RemoteNetIfc) : AgentState × List Action :=
  let (st, acts) := acc
  let ifcMAC := macString ifc.GuestMAC
  let ifcOwnerAtts : List NetworkAttachment :=
    match alookup st.vniToVnState ifc.VNI with
    | some _ => (caches.remoteList ifc.VNI).filter (fun att => attMACKeyOf att = ifcMAC)
    | none => []
  match ifcOwnerAtts with
  | [ifcOwnerAtt] =>
    let nsn := AttNSN ifcOwnerAtt
    let oldRemoteIfc := getRemoteIfc st nsn
    let st1 := assignRemoteIfc st nsn ifc
    match oldRemoteIfc with
    | some old => (st1, acts ++ [Action.deleteRemote old])
    | none =>
      match getLocalIfc st1 nsn with
      | some oldLocalIfc => (st1, acts ++ [Action.deleteLocal oldLocalIfc])
      | none => (st1, acts)
  | _ => (st, acts ++ [Action.deleteRemote ifc])

def syncPreExistingRemoteIfcs (caches : Caches)
    (preExistingRemoteIfcs : List RemoteNetIfc) (st : AgentState) :
    AgentState × List Action :=
  -- first pass: seed the vnStates (and their remote informers) from all
  -- cached local attachments
  let st1 := caches.localList.foldl
    (fun s att => (updateVNStateForExistingAtt s (AttNSN att) true att.status.addressVNI).1) st
  preExistingRemoteIfcs.foldl (syncRemoteStep caches) (st1, [])

/-- Embeds `syncPreExistingIfcs`: local interfaces first, then remote ones. -/
def syncPreExistingIfcs (caches : Caches) (preLocal : List LocalNetIfc)
    (preRemote : List RemoteNetIfc) (st : AgentState) : AgentState × List Action :=
  let (st1, acts1) := syncPreExistingLocalIfcs caches.localList preLocal st
  let (st2, acts2) := syncPreExistingRemoteIfcs caches preRemote st1
  (st2, acts1 ++ acts2)

/-! ### Operation sequences for the map invariants

`vniToVnState` is mutated only by `updateVNStateForExistingAtt` and
`removeAttFromVNState` (the departure path, which also runs the teardown);
`nsnToVNIs` is mutated only by `addVNI` and `removeSeenInVNI`.  The inductive
op types below generate every sequence of those mutators. -/

inductive VNOp where
  | existing (attNSN : NSN) (attIsLocal : Bool) (vni : Nat)
  | departure (attName : String) (vni : Nat)
deriving DecidableEq, Repr

def applyVNOp (st : AgentState) : VNOp → AgentState
  | VNOp.existing attNSN attIsLocal vni =>
    match updateVNStateForExistingAtt st attNSN attIsLocal vni with
    | (st1, some vns, _) => (clearVNResources st1 vns vni).1
    | (st1, none, _) => st1
  | VNOp.departure attName vni => updateVNStateAfterAttDeparture st attName vni

def applyVNOps (ops : List VNOp) (st : AgentState) : AgentState :=
  ops.foldl applyVNOp st

inductive TrackerOp where
  | add (nsn : NSN) (vni : Nat)
  | remove (nsn : NSN) (vni : Nat)
deriving DecidableEq, Repr

def applyTrackerOp (st : AgentState) : TrackerOp → AgentState
  | TrackerOp.add nsn vni => addVNI st nsn vni
  | TrackerOp.remove nsn vni => removeSeenInVNI st nsn vni

def applyTrackerOps (ops : List TrackerOp) (st : AgentState) : AgentState :=
  ops.foldl applyTrackerOp st

/-- Claim C6's invariant: a vnState is registered for a VNI only while its
local-attachment set is non-empty. -/
def vnLifecycleInv (st : AgentState) : Prop :=
  ∀ p ∈ st.vniToVnState, p.2.localAtts ≠ []

/-- Claim C10's invariant: the ambiguity tracker holds no empty VNI set. -/
def trackerInv (st : AgentState) : Prop :=
  ∀ p ∈ st.nsnToVNIs, p.2 ≠ []

/-! ### Trace observers -/

/-- GuestIP fields of the local interfaces a trace asks the fabric to create. -/
def createdLocalGuestIPs (acts : List Action) : List (Option IPv4) :=
  acts.filterMap fun a =>
    match a with
    | Action.createLocal i => some i.GuestIP
    | _ => none

/-- GuestIP fields of the remote interfaces a trace asks the fabric to create. -/
def createdRemoteGuestIPs (acts : List Action) : List (Option IPv4) :=
  acts.filterMap fun a =>
    match a with
    | Action.createRemote i => some i.GuestIP
    | _ => none

/-- Whether an action is a store `Update`. -/
def isStoreUpdate : Action → Bool
  | Action.storeUpdate _ => true
  | _ => false

/-! ### Concrete sample data used by witnesses and counterexamples -/

def ipA : IPv4 := ⟨192, 168, 1, 7⟩
def hostA : IPv4 := ⟨10, 0, 0, 1⟩
def hostB : IPv4 := ⟨10, 0, 0, 2⟩
def sampleConf : AgentConf := ⟨"n1", hostA⟩
def nsnA : NSN := ⟨"ns1", "a1"⟩

/-- A local attachment of node n1 in VNI 42 whose status has not been written
back yet. -/
def attLocalA : NetworkAttachment :=
  { meta := ⟨"ns1", "a1", "u1", "7"⟩,
    spec := ⟨"n1", "s1", [], []⟩,
    status := ⟨⟨[], []⟩, "", 42, ipA, "", "", none, none⟩ }

/-- The same identity as observed by a remote cache: bound to node n2 with
host IP 10.0.0.2, same VNI and guest IP (hence the same derived MAC). -/
def attRemoteA : NetworkAttachment :=
  { meta := ⟨"ns1", "a1", "u1", "8"⟩,
    spec := ⟨"n2", "s1", [], []⟩,
    status := ⟨⟨[], []⟩, "", 42, ipA, "", "", some hostB, none⟩ }

def macA : List Nat := generateMACAddr 42 ipA

def preLocalA : LocalNetIfc := ⟨generateIfcName macA, 42, macA, none, some hostA⟩

def preRemoteA : RemoteNetIfc := ⟨42, macA, none, some hostB⟩

/-- Caches for the startup scenario of claim C1: the local cache holds
`attLocalA`, and — the same object being observed by both streams during the
ambiguity window — the remote cache of VNI 42 holds `attRemoteA`. -/
def cachesC1 : Caches :=
  { localGet := fun _ => none,
    remoteGet := fun _ _ _ => none,
    localList := [attLocalA],
    remoteList := fun vni => if vni = 42 then [attRemoteA] else [] }

/-- Caches whose local stream holds only `attLocalA`. -/
def cachesLocalA : Caches :=
  { localGet := fun nsn => if nsn = nsnA then some attLocalA else none,
    remoteGet := fun _ _ _ => none,
    localList := [attLocalA],
    remoteList := fun _ => [] }

/-- Empty caches. -/
def cachesEmpty : Caches :=
  { localGet := fun _ => none, remoteGet := fun _ _ _ => none,
    localList := [], remoteList := fun _ => [] }

/-! ### Claim C5 — derived MAC and interface name -/

/-- C5: for every VNI and IPv4 address the derived MAC equals the spec's byte
formula (a pure function of the inputs), and the generated interface name is
"kos" followed by the 12 lowercase hex characters of that MAC with no
separators. -/
theorem claim5_mac_formula_and_name (vni b0 b1 b2 b3 : Nat) :
    generateMACAddr vni ⟨b0, b1, b2, b3⟩ =
      [(((vni >>> 13) % 256) &&& 0xF8) ||| ((b0 &&& 0x02) <<< 1) ||| 0x02,
       b1, b2, b3, (vni >>> 8) % 256, vni % 256] ∧
    generateIfcName (generateMACAddr vni ⟨b0, b1, b2, b3⟩) =
      "kos" ++ String.mk (macHexConcat (generateMACAddr vni ⟨b0, b1, b2, b3⟩)) ∧
    (macHexConcat (generateMACAddr vni ⟨b0, b1, b2, b3⟩)).length = 12 ∧
    ∀ c ∈ macHexConcat (generateMACAddr vni ⟨b0, b1, b2, b3⟩), c ∈ hexChars := by
  refine ⟨rfl, generateIfcName_eq _, ?_, ?_⟩
  · simp [macHexConcat, generateMACAddr, byteHexChars]
  · intro c hc
    simp [macHexConcat, generateMACAddr, byteHexChars] at hc
    rcases hc with h | h | h | h | h | h | h | h | h | h | h | h <;>
      (subst h; exact hexDigitChar_mem _)

/-! ### Claim C8 — frame condition of the status write-back -/

/-- C8: the object `setAttStatus` sends to the store differs from its input
only in `Status.HostIP` (set to this node's host IP) and `Status.IfcName`
(set to the given interface name); all other spec, status and metadata fields
are unchanged. -/
theorem claim8_setAttStatus_frame (conf : AgentConf) (att : NetworkAttachment)
    (ifcName : String) :
    (setAttStatusObj conf att ifcName).meta = att.meta ∧
    (setAttStatusObj conf att ifcName).spec = att.spec ∧
    (setAttStatusObj conf att ifcName).status.hostIP = some conf.hostIP ∧
    (setAttStatusObj conf att ifcName).status.ifcName = ifcName ∧
    (setAttStatusObj conf att ifcName).status.errors = att.status.errors ∧
    (setAttStatusObj conf att ifcName).status.lockUID = att.status.lockUID ∧
    (setAttStatusObj conf att ifcName).status.addressVNI = att.status.addressVNI ∧
    (setAttStatusObj conf att ifcName).status.ipv4 = att.status.ipv4 ∧
    (setAttStatusObj conf att ifcName).status.macAddress = att.status.macAddress ∧
    (setAttStatusObj conf att ifcName).status.postCreateExecReport =
      att.status.postCreateExecReport :=
  ⟨rfl, rfl, rfl, rfl, rfl, rfl, rfl, rfl, rfl, rfl⟩

/-! ### Claim C3 — fields of the interfaces the reconciler creates -/

/-- C3 counterexample: with no interface registered for the attachment,
`createOrUpdateIfc` creates a local interface (local case: host IP is this
node's) and a remote interface (remote case) whose `GuestIP` is `none` — the
zero value — and not the attachment's `Status.IPv4`. -/
theorem claim3_cex_guestIP_not_set :
    createdLocalGuestIPs
        (createOrUpdateIfc sampleConf fabricOkEnv initialAgentState ipA
          (some sampleConf.hostIP) 42 nsnA).2.1 = [none] ∧
    createdRemoteGuestIPs
        (createOrUpdateIfc sampleConf fabricOkEnv initialAgentState ipA
          (some hostB) 42 nsnA).2.1 = [none] ∧
    (none : Option IPv4) ≠ some ipA := by
  refine ⟨?_, ?_, by decide⟩ <;> rfl

/-- C3 amended: for an unambiguous attachment with no registered interface,
the interface created through the fabric carries the VNI, the derived MAC
`generateMACAddr(VNI, Status.IPv4)`, and the host IP (and, for the local
case, the generated name); its `GuestIP` field is left at the zero value
`none` rather than being set to `Status.IPv4` — the guest IP reaches the
interface only through bytes 1..3 of the derived MAC. -/
theorem claim3_created_ifc_fields (conf : AgentConf) (env : FabricEnv) (st : AgentState)
    (ip : IPv4) (hip : Option IPv4) (vni : Nat) (nsn : NSN)
    (hl : getLocalIfc st nsn = none) (hr : getRemoteIfc st nsn = none) :
    (hip = some conf.hostIP →
      (createOrUpdateIfc conf env st ip hip vni nsn).2.1 =
        [Action.createLocal
          ⟨generateIfcName (generateMACAddr vni ip), vni, generateMACAddr vni ip, none, hip⟩]) ∧
    (hip ≠ some conf.hostIP →
      (createOrUpdateIfc conf env st ip hip vni nsn).2.1 =
        [Action.createRemote ⟨vni, generateMACAddr vni ip, none, hip⟩]) := by
  constructor
  · intro h
    subst h
    simp only [createOrUpdateIfc, hl, hr]
    simp only [Option.isSome_none, Bool.not_false, Bool.and_self, Bool.true_or, if_true]
    by_cases hc : env.createLocalOk
        ⟨generateIfcName (generateMACAddr vni ip), vni, generateMACAddr vni ip, none,
          some conf.hostIP⟩ = true <;>
      simp [hc]
  · intro h
    simp only [createOrUpdateIfc, hl, hr]
    simp only [Option.isSome_none, Bool.not_false, Bool.and_self, Bool.true_or, if_true]
    rw [if_neg h]
    by_cases hc : env.createRemoteOk ⟨vni, generateMACAddr vni ip, none, hip⟩ = true <;>
      simp [hc]

/-- C3 witness: the amended theorem applied at the sample input. -/
theorem claim3_created_ifc_fields_w :
    (createOrUpdateIfc sampleConf fabricOkEnv initialAgentState ipA
        (some sampleConf.hostIP) 42 nsnA).2.1 =
      [Action.createLocal
        ⟨generateIfcName (generateMACAddr 42 ipA), 42, generateMACAddr 42 ipA, none,
          some sampleConf.hostIP⟩] :=
  (claim3_created_ifc_fields sampleConf fabricOkEnv initialAgentState ipA
      (some sampleConf.hostIP) 42 nsnA rfl rfl).1 rfl

/-! ### Claim C2 — ambiguity handling -/

/-- An agent state in which identity `nsnA` has been seen as remote in the
two VNIs 1 and 2. -/
def stAmbiguous : AgentState := ⟨[], [], [], [], [(nsnA, [1, 2])], []⟩

/-- Caches observing ns1/a1 both as local and as remote in VNI 42 — the
ambiguity window of a node move. -/
def cachesBoth : Caches :=
  { localGet := fun nsn => if nsn = nsnA then some attLocalA else none,
    remoteGet := fun vni ns name =>
      if vni = 42 ∧ ns = "ns1" ∧ name = "a1" then some attRemoteA else none,
    localList := [attLocalA],
    remoteList := fun _ => [] }

/-- A state in which ns1/a1 has been seen in the single VNI 42, the vnState
of VNI 42 exists (kept alive by another local attachment), and a LocalIfc is
registered for ns1/a1. -/
def stBothCaches : AgentState :=
  ⟨[(42, ⟨"ns1", false, ["other"], []⟩)], [], [(nsnA, preLocalA)], [], [(nsnA, [42])], []⟩

/-- C2: the two-or-more-VNIs half of the claim holds — processing
`stAmbiguous` touches nothing, returns success and Forgets the item (first
conjunct).  The found-in-both-caches half fails on the code: `getAttachment`'s
both-caches switch case only logs and Go falls through the switch to
`return nil, true`, so the identity is processed as *deleted* —
`processDeletedAtt` asks the fabric to delete the registered LocalIfc
(second conjunct) and removes it from the interface registry (third
conjunct), contrary to the claim's "no fabric, registry, or store action". -/
theorem claim2_both_caches_processed_as_deleted :
    processQueueItem sampleConf cachesEmpty fabricOkEnv StoreUpdateResult.ok
        stAmbiguous nsnA =
      (stAmbiguous, [], none, QueueDecision.forget) ∧
    (processQueueItem sampleConf cachesBoth fabricOkEnv StoreUpdateResult.ok
        stBothCaches nsnA).2.1 = [Action.deleteLocal preLocalA] ∧
    alookup (processQueueItem sampleConf cachesBoth fabricOkEnv StoreUpdateResult.ok
        stBothCaches nsnA).1.nsnToLocalIfc nsnA = none := by
  refine ⟨?_, ?_, ?_⟩ <;> rfl

/-! ### Claim C10 — the ambiguity tracker holds no empty set -/

theorem alookup_mem [DecidableEq α] {m : List (α × β)} {a : α} {b : β}
    (h : alookup m a = some b) : (a, b) ∈ m := by
  rw [alookup] at h
  rcases hf : m.find? (fun p => p.1 = a) with _ | p
  · rw [hf] at h; exact absurd h (by simp)
  · rw [hf] at h
    have hm := List.mem_of_find?_eq_some hf
    have hp := List.find?_some hf
    simp at h hp
    rw [← h, ← hp]
    exact hm

theorem trackerInv_addVNI {st : AgentState} (nsn : NSN) (vni : Nat)
    (h : trackerInv st) : trackerInv (addVNI st nsn vni) := by
  intro p hp
  simp only [addVNI] at hp
  rcases mem_aset hp with hp' | hp'
  · subst hp'
    by_cases hmem : vni ∈ (alookup st.nsnToVNIs nsn).getD []
    · simp only [hmem, if_true]
      exact List.ne_nil_of_mem hmem
    · simp only [hmem, if_false]
      simp
  · exact h p hp'

theorem trackerInv_removeSeenInVNI {st : AgentState} (nsn : NSN) (vni : Nat)
    (h : trackerInv st) : trackerInv (removeSeenInVNI st nsn vni) := by
  intro p hp
  rcases he : alookup st.nsnToVNIs nsn with _ | l
  · rw [removeSeenInVNI, he] at hp
    exact h p hp
  · rw [removeSeenInVNI, he] at hp
    by_cases hlen : (l.filter (fun v => v ≠ vni)).length = 0
    · simp only [hlen, if_true] at hp
      exact h p (mem_adel hp)
    · simp only [hlen, if_false] at hp
      rcases mem_aset hp with hp' | hp'
      · subst hp'
        intro hnil
        simp only at hnil
        exact hlen (by rw [hnil]; rfl)
      · exact h p hp'

theorem trackerInv_applyTrackerOps (ops : List TrackerOp) :
    ∀ st : AgentState, trackerInv st → trackerInv (applyTrackerOps ops st) := by
  induction ops with
  | nil => intro st h; exact h
  | cons op rest ih =>
    intro st h
    rcases op with ⟨nsn, vni⟩ | ⟨nsn, vni⟩
    · exact ih _ (trackerInv_addVNI nsn vni h)
    · exact ih _ (trackerInv_removeSeenInVNI nsn vni h)

theorem getAttSeenInVNI_count_zero {st : AgentState} (nsn : NSN) (h : trackerInv st) :
    ((getAttSeenInVNI st nsn).2 = 0 ↔ alookup st.nsnToVNIs nsn = none) := by
  rcases he : alookup st.nsnToVNIs nsn with _ | l
  · simp [getAttSeenInVNI, he]
  · have hne : l ≠ [] := h (nsn, l) (alookup_mem he)
    simp [getAttSeenInVNI, he, List.length_eq_zero, hne]

theorem getAttSeenInVNI_count_one {st : AgentState} (nsn : NSN)
    (h : (getAttSeenInVNI st nsn).2 = 1) :
    alookup st.nsnToVNIs nsn = some [(getAttSeenInVNI st nsn).1] := by
  rcases he : alookup st.nsnToVNIs nsn with _ | l
  · rw [getAttSeenInVNI, he] at h
    exact absurd h (by simp)
  · rw [getAttSeenInVNI, he] at h ⊢
    simp only at h
    rcases List.length_eq_one.mp h with ⟨a, rfl⟩
    simp

/-- C10: after any sequence of `addVNI` / `removeSeenInVNI` calls starting
from the empty state, every tracked identity has a non-empty VNI set; hence
`getAttSeenInVNI` reports count 0 exactly when the identity is untracked,
and when it reports count 1 the returned VNI is the unique element of the
identity's set. -/
theorem claim10_tracker_no_empty_sets (ops : List TrackerOp) :
    trackerInv (applyTrackerOps ops initialAgentState) ∧
    ∀ nsn : NSN,
      ((getAttSeenInVNI (applyTrackerOps ops initialAgentState) nsn).2 = 0 ↔
        alookup (applyTrackerOps ops initialAgentState).nsnToVNIs nsn = none) ∧
      ((getAttSeenInVNI (applyTrackerOps ops initialAgentState) nsn).2 = 1 →
        alookup (applyTrackerOps ops initialAgentState).nsnToVNIs nsn =
          some [(getAttSeenInVNI (applyTrackerOps ops initialAgentState) nsn).1]) := by
  have hinv := trackerInv_applyTrackerOps ops initialAgentState (by intro p hp; cases hp)
  exact ⟨hinv, fun nsn =>
    ⟨getAttSeenInVNI_count_zero nsn hinv, fun h1 => getAttSeenInVNI_count_one nsn h1⟩⟩

/-- C10 witness: the theorem applied after a single `addVNI`. -/
theorem claim10_tracker_no_empty_sets_w :
    alookup (applyTrackerOps [TrackerOp.add nsnA 5] initialAgentState).nsnToVNIs nsnA =
      some [(getAttSeenInVNI (applyTrackerOps [TrackerOp.add nsnA 5] initialAgentState)
        nsnA).1] :=
  ((claim10_tracker_no_empty_sets [TrackerOp.add nsnA 5]).2 nsnA).2 (by decide)

/-! ### Claim C6 — vnState lifecycle -/

theorem listInsert_ne_nil (l : List String) (a : String) : listInsert l a ≠ [] := by
  rw [listInsert]
  by_cases h : a ∈ l
  · simp only [h, if_true]
    exact List.ne_nil_of_mem h
  · simp [h]

theorem queueAdd_vniToVnState (st : AgentState) (nsn : NSN) :
    (queueAdd st nsn).vniToVnState = st.vniToVnState := by
  rw [queueAdd]; split <;> rfl

theorem removeSeenInVNI_vniToVnState (st : AgentState) (nsn : NSN) (vni : Nat) :
    (removeSeenInVNI st nsn vni).vniToVnState = st.vniToVnState := by
  rw [removeSeenInVNI]
  rcases alookup st.nsnToVNIs nsn with _ | l
  · rfl
  · dsimp only
    split <;> rfl

theorem clearVNStep_vniToVnState (ns : String) (vni : Nat) (st : AgentState) (name : String) :
    (clearVNStep ns vni st name).vniToVnState = st.vniToVnState := by
  rw [clearVNStep, queueAdd_vniToVnState, removeSeenInVNI_vniToVnState]

theorem foldl_clearVNStep_vniToVnState (ns : String) (vni : Nat) (names : List String) :
    ∀ st : AgentState,
      (names.foldl (clearVNStep ns vni) st).vniToVnState = st.vniToVnState := by
  induction names with
  | nil => intro st; rfl
  | cons n t ih => intro st; rw [List.foldl_cons, ih, clearVNStep_vniToVnState]

theorem clearVNResources_vniToVnState (st : AgentState) (vns : VnState) (vni : Nat) :
    (clearVNResources st vns vni).1.vniToVnState = st.vniToVnState :=
  foldl_clearVNStep_vniToVnState vns.ns vni vns.remoteAtts st

/-- Replace the `vniToVnState` field (statement-side shorthand). -/
def setVnMap (st : AgentState) (m : List (Nat × VnState)) : AgentState :=
  { st with vniToVnState := m }

/-- Shape of the local branch of `updateVNStateForExistingAtt`. -/
theorem updateExisting_local_eq (st : AgentState) (nsn : NSN) (vni : Nat) :
    updateVNStateForExistingAtt st nsn true vni =
      (setVNStateVNI
        (setVnMap st (aset st.vniToVnState vni
          (vnAddLocal ((alookup st.vniToVnState vni).getD (initVNState nsn.ns)) nsn.name)))
        nsn vni, none, false) := rfl

/-- Shape of the remote branch when the vnState is missing. -/
theorem updateExisting_remote_none_eq (st : AgentState) (nsn : NSN) (vni : Nat)
    (h : alookup st.vniToVnState vni = none) :
    updateVNStateForExistingAtt st nsn false vni = (unsetVNStateVNI st nsn, none, true) := by
  simp [updateVNStateForExistingAtt, h]

/-- Shape of the remote branch that empties the local set: the vnState leaves
the map in the same critical section and is handed back for teardown. -/
theorem updateExisting_remote_some_empty_eq (st : AgentState) (nsn : NSN) (vni : Nat)
    (vns : VnState) (h : alookup st.vniToVnState vni = some vns)
    (hemp : (vnAddRemote vns nsn.name).localAtts = []) :
    updateVNStateForExistingAtt st nsn false vni =
      (unsetVNStateVNI (setVnMap st (adel st.vniToVnState vni)) nsn,
       some (vnAddRemote vns nsn.name), false) := by
  simp [updateVNStateForExistingAtt, setVnMap, h, hemp]

/-- Shape of the remote branch that leaves the local set non-empty. -/
theorem updateExisting_remote_some_nonempty_eq (st : AgentState) (nsn : NSN) (vni : Nat)
    (vns : VnState) (h : alookup st.vniToVnState vni = some vns)
    (hne : (vnAddRemote vns nsn.name).localAtts ≠ []) :
    updateVNStateForExistingAtt st nsn false vni =
      (setVNStateVNI
        (setVnMap st (aset st.vniToVnState vni (vnAddRemote vns nsn.name)))
        nsn vni, none, false) := by
  simp [updateVNStateForExistingAtt, setVnMap, h, hne]

theorem vnInv_updateExisting {st : AgentState} (nsn : NSN) (b : Bool) (vni : Nat)
    (h : vnLifecycleInv st) :
    vnLifecycleInv (updateVNStateForExistingAtt st nsn b vni).1 := by
  cases b
  · rcases he : alookup st.vniToVnState vni with _ | vns
    · rw [updateExisting_remote_none_eq st nsn vni he]
      exact h
    · by_cases hemp : (vnAddRemote vns nsn.name).localAtts = []
      · rw [updateExisting_remote_some_empty_eq st nsn vni vns he hemp]
        intro p hp
        exact h p (mem_adel hp)
      · rw [updateExisting_remote_some_nonempty_eq st nsn vni vns he hemp]
        intro p hp
        rcases mem_aset hp with hp' | hp'
        · subst hp'
          exact hemp
        · exact h p hp'
  · rw [updateExisting_local_eq st nsn vni]
    intro p hp
    rcases mem_aset hp with hp' | hp'
    · subst hp'
      exact listInsert_ne_nil _ _
    · exact h p hp'

theorem vnInv_removeAtt {st : AgentState} (attName : String) (vni : Nat)
    (h : vnLifecycleInv st) :
    vnLifecycleInv (removeAttFromVNState st attName vni).1 := by
  rw [removeAttFromVNState]
  rcases he : alookup st.vniToVnState vni with _ | vns
  · exact h
  · dsimp only
    by_cases hemp : listErase vns.localAtts attName = []
    · simp only [hemp, if_true]
      intro p hp
      exact h p (mem_adel hp)
    · simp only [hemp, if_false]
      intro p hp
      rcases mem_aset hp with hp' | hp'
      · subst hp'
        exact hemp
      · exact h p hp'

theorem vnInv_clear {st : AgentState} (vns : VnState) (vni : Nat)
    (h : vnLifecycleInv st) :
    vnLifecycleInv (clearVNResources st vns vni).1 := by
  intro p hp
  rw [clearVNResources_vniToVnState] at hp
  exact h p hp

theorem vnInv_departure {st : AgentState} (attName : String) (vni : Nat)
    (h : vnLifecycleInv st) :
    vnLifecycleInv (updateVNStateAfterAttDeparture st attName vni) := by
  rw [updateVNStateAfterAttDeparture]
  rcases hr : removeAttFromVNState st attName vni with ⟨st1, ret⟩
  have h1 : vnLifecycleInv st1 := by
    have := vnInv_removeAtt attName vni h
    rw [hr] at this
    exact this
  cases ret
  · exact h1
  · exact vnInv_clear _ vni h1

theorem vnInv_applyVNOp {st : AgentState} (op : VNOp) (h : vnLifecycleInv st) :
    vnLifecycleInv (applyVNOp st op) := by
  rcases op with ⟨nsn, b, vni⟩ | ⟨attName, vni⟩
  · rw [applyVNOp]
    rcases hres : updateVNStateForExistingAtt st nsn b vni with ⟨st1, ret, noVn⟩
    have h1 : vnLifecycleInv st1 := by
      have := vnInv_updateExisting nsn b vni h
      rw [hres] at this
      exact this
    cases ret
    · exact h1
    · exact vnInv_clear _ vni h1
  · exact vnInv_departure attName vni h

theorem vnInv_applyVNOps (ops : List VNOp) :
    ∀ st : AgentState, vnLifecycleInv st → vnLifecycleInv (applyVNOps ops st) := by
  induction ops with
  | nil => intro st h; exact h
  | cons op rest ih =>
    intro st h
    exact ih _ (vnInv_applyVNOp op h)

/-- C6: in every state reachable by the mutators of `vniToVnState`
(`updateVNStateForExistingAtt` — including the teardown it may trigger — and
the departure path through `removeAttFromVNState`), a vnState is mapped only
while its local-attachment set is non-empty; and adding a local attachment
with `AddressVNI = v` always leaves a vnState registered for `v`. -/
theorem claim6_vnstate_lifecycle :
    (∀ ops : List VNOp, vnLifecycleInv (applyVNOps ops initialAgentState)) ∧
    (∀ (ops : List VNOp) (nsn : NSN) (vni : Nat),
      (alookup (applyVNOps (ops ++ [VNOp.existing nsn true vni])
          initialAgentState).vniToVnState vni).isSome = true) := by
  constructor
  · intro ops
    exact vnInv_applyVNOps ops initialAgentState (by intro p hp; cases hp)
  · intro ops nsn vni
    rw [applyVNOps, List.foldl_append]
    rw [List.foldl_cons, List.foldl_nil]
    rw [applyVNOp]
    rw [updateExisting_local_eq]
    simp [setVNStateVNI, setVnMap, alookup_aset]

/-- C6 witness: the theorem applied to a concrete op sequence. -/
theorem claim6_vnstate_lifecycle_w :
    vnLifecycleInv (applyVNOps [VNOp.existing nsnA true 42] initialAgentState) ∧
    (alookup (applyVNOps ([] ++ [VNOp.existing nsnA true 42])
        initialAgentState).vniToVnState 42).isSome = true :=
  ⟨claim6_vnstate_lifecycle.1 [VNOp.existing nsnA true 42],
   claim6_vnstate_lifecycle.2 [] nsnA 42⟩

/-! ### Claim C9 — VN teardown -/

/-- Entry-level effect of `removeSeenInVNI` on one tracker entry. -/
def trackerRemove (e : Option (List Nat)) (vni : Nat) : Option (List Nat) :=
  match e with
  | none => none
  | some l =>
    let l' := l.filter (fun v => v ≠ vni)
    if l'.length = 0 then none else some l'

theorem removeSeenInVNI_alookup (st : AgentState) (nsn : NSN) (vni : Nat) (nsn' : NSN) :
    alookup (removeSeenInVNI st nsn vni).nsnToVNIs nsn' =
      if nsn' = nsn then trackerRemove (alookup st.nsnToVNIs nsn) vni
      else alookup st.nsnToVNIs nsn' := by
  rw [removeSeenInVNI]
  rcases he : alookup st.nsnToVNIs nsn with _ | l
  · by_cases h : nsn' = nsn
    · subst h; simp [trackerRemove, he]
    · simp [trackerRemove, h]
  · dsimp only
    by_cases hlen : (l.filter (fun v => v ≠ vni)).length = 0
    · simp only [hlen, if_true]
      show alookup (adel st.nsnToVNIs nsn) nsn' = _
      rw [alookup_adel]
      by_cases h : nsn' = nsn
      · rw [if_pos h, if_pos h]
        show (none : Option (List Nat)) =
          if (l.filter (fun v => v ≠ vni)).length = 0 then none
          else some (l.filter (fun v => v ≠ vni))
        rw [if_pos hlen]
      · rw [if_neg h, if_neg h]
    · simp only [hlen, if_false]
      show alookup (aset st.nsnToVNIs nsn _) nsn' = _
      rw [alookup_aset]
      by_cases h : nsn' = nsn
      · rw [if_pos h, if_pos h]
        show some (l.filter (fun v => v ≠ vni)) =
          if (l.filter (fun v => v ≠ vni)).length = 0 then none
          else some (l.filter (fun v => v ≠ vni))
        rw [if_neg hlen]
      · rw [if_neg h, if_neg h]

theorem removeSeenInVNI_queue (st : AgentState) (nsn : NSN) (vni : Nat) :
    (removeSeenInVNI st nsn vni).queue = st.queue := by
  rw [removeSeenInVNI]
  rcases alookup st.nsnToVNIs nsn with _ | l
  · rfl
  · dsimp only; split <;> rfl

theorem queueAdd_nsnToVNIs (st : AgentState) (nsn : NSN) :
    (queueAdd st nsn).nsnToVNIs = st.nsnToVNIs := by
  rw [queueAdd]; split <;> rfl

theorem queueAdd_queue_mem (st : AgentState) (nsn x : NSN) :
    x ∈ (queueAdd st nsn).queue ↔ (x ∈ st.queue ∨ x = nsn) := by
  rw [queueAdd]
  split
  · constructor
    · exact fun h => Or.inl h
    · rintro (h | rfl)
      · exact h
      · assumption
  · simp

theorem clearVNStep_alookup (ns : String) (vni : Nat) (st : AgentState) (name : String)
    (nsn' : NSN) :
    alookup (clearVNStep ns vni st name).nsnToVNIs nsn' =
      if nsn' = (⟨ns, name⟩ : NSN) then trackerRemove (alookup st.nsnToVNIs nsn') vni
      else alookup st.nsnToVNIs nsn' := by
  rw [clearVNStep]
  show alookup (queueAdd _ _).nsnToVNIs nsn' = _
  rw [queueAdd_nsnToVNIs, removeSeenInVNI_alookup]
  by_cases h : nsn' = (⟨ns, name⟩ : NSN) <;> simp [h]

theorem clearVNStep_queue_mem (ns : String) (vni : Nat) (st : AgentState) (name : String)
    (x : NSN) :
    x ∈ (clearVNStep ns vni st name).queue ↔ (x ∈ st.queue ∨ x = ⟨ns, name⟩) := by
  rw [clearVNStep, queueAdd_queue_mem]
  have h := removeSeenInVNI_queue st ⟨ns, name⟩ vni
  rw [h]

theorem fold_clear_untouched (ns : String) (vni : Nat) (names : List String) :
    ∀ (st : AgentState) (nsn' : NSN), (∀ name ∈ names, nsn' ≠ (⟨ns, name⟩ : NSN)) →
      alookup ((names.foldl (clearVNStep ns vni) st)).nsnToVNIs nsn' =
          alookup st.nsnToVNIs nsn' ∧
        (nsn' ∈ (names.foldl (clearVNStep ns vni) st).queue ↔ nsn' ∈ st.queue) := by
  induction names with
  | nil => intro st nsn' _; exact ⟨rfl, Iff.rfl⟩
  | cons n t ih =>
    intro st nsn' hne
    rw [List.foldl_cons]
    have hn : nsn' ≠ (⟨ns, n⟩ : NSN) := hne n (List.mem_cons_self n t)
    obtain ⟨h1, h2⟩ := ih (clearVNStep ns vni st n) nsn'
      (fun name hm => hne name (List.mem_cons_of_mem n hm))
    refine ⟨?_, ?_⟩
    · rw [h1, clearVNStep_alookup, if_neg hn]
    · rw [h2, clearVNStep_queue_mem]
      simp [hn]

theorem fold_clear_queue_mono (ns : String) (vni : Nat) (names : List String) :
    ∀ (st : AgentState) (x : NSN), x ∈ st.queue →
      x ∈ (names.foldl (clearVNStep ns vni) st).queue := by
  induction names with
  | nil => intro st x h; exact h
  | cons n t ih =>
    intro st x h
    rw [List.foldl_cons]
    exact ih _ x ((clearVNStep_queue_mem ns vni st n x).mpr (Or.inl h))

theorem fold_clear_touched (ns : String) (vni : Nat) (names : List String)
    (hnd : names.Nodup) (name : String) (hmem : name ∈ names) :
    ∀ st : AgentState,
      alookup ((names.foldl (clearVNStep ns vni) st)).nsnToVNIs ⟨ns, name⟩ =
          trackerRemove (alookup st.nsnToVNIs ⟨ns, name⟩) vni ∧
        (⟨ns, name⟩ : NSN) ∈ (names.foldl (clearVNStep ns vni) st).queue := by
  induction names with
  | nil => cases hmem
  | cons n t ih =>
    intro st
    rw [List.foldl_cons]
    rcases List.nodup_cons.mp hnd with ⟨hnin, hndt⟩
    rcases List.mem_cons.mp hmem with rfl | hmt
    · -- the head is the touched name; the tail never touches it again
      have hne : ∀ m ∈ t, (⟨ns, name⟩ : NSN) ≠ ⟨ns, m⟩ := by
        intro m hm hcontra
        apply hnin
        have : name = m := congrArg NSN.name hcontra
        rw [this]
        exact hm
      obtain ⟨h1, h2⟩ := fold_clear_untouched ns vni t (clearVNStep ns vni st name)
        ⟨ns, name⟩ hne
      refine ⟨?_, ?_⟩
      · rw [h1, clearVNStep_alookup, if_pos rfl]
      · exact fold_clear_queue_mono ns vni t _ _
          ((clearVNStep_queue_mem ns vni st name _).mpr (Or.inr rfl))
    · -- the head is a different name
      have hneq : (⟨ns, name⟩ : NSN) ≠ ⟨ns, n⟩ := by
        intro hcontra
        apply hnin
        have : name = n := congrArg NSN.name hcontra
        rw [← this]
        exact hmt
      obtain ⟨h1, h2⟩ := ih hndt hmt (clearVNStep ns vni st n)
      refine ⟨?_, h2⟩
      rw [h1, clearVNStep_alookup, if_neg hneq]

/-- C9: `clearVNResources` closes the vnState's remote-watcher stop channel;
for every name in the vnState's remote set it removes the VNI from that
identity's ambiguity-tracker entry and adds the identity to the work queue;
identities not of the remote set are neither enqueued nor touched in the
tracker. -/
theorem claim9_teardown (st : AgentState) (vns : VnState) (vni : Nat)
    (hnd : vns.remoteAtts.Nodup) :
    (clearVNResources st vns vni).2.stopChClosed = true ∧
    (∀ name ∈ vns.remoteAtts,
      alookup (clearVNResources st vns vni).1.nsnToVNIs ⟨vns.ns, name⟩ =
          trackerRemove (alookup st.nsnToVNIs ⟨vns.ns, name⟩) vni ∧
        (⟨vns.ns, name⟩ : NSN) ∈ (clearVNResources st vns vni).1.queue) ∧
    (∀ nsn' : NSN, (∀ name ∈ vns.remoteAtts, nsn' ≠ (⟨vns.ns, name⟩ : NSN)) →
      alookup (clearVNResources st vns vni).1.nsnToVNIs nsn' = alookup st.nsnToVNIs nsn' ∧
        (nsn' ∈ (clearVNResources st vns vni).1.queue ↔ nsn' ∈ st.queue)) := by
  refine ⟨rfl, ?_, ?_⟩
  · intro name hmem
    exact fold_clear_touched vns.ns vni vns.remoteAtts hnd name hmem st
  · intro nsn' hne
    exact fold_clear_untouched vns.ns vni vns.remoteAtts st nsn' hne

/-- A vnState for namespace ns1 whose remote set holds the one name b1. -/
def vnsB : VnState := ⟨"ns1", false, [], ["b1"]⟩

/-- A state whose ambiguity tracker has seen ns1/b1 in VNI 42. -/
def stSeenB : AgentState := ⟨[], [], [], [], [(⟨"ns1", "b1"⟩, [42])], []⟩

/-- C9 witness: the theorem applied to the one-remote-attachment vnState. -/
theorem claim9_teardown_w :
    alookup (clearVNResources stSeenB vnsB 42).1.nsnToVNIs ⟨"ns1", "b1"⟩ =
        trackerRemove (alookup stSeenB.nsnToVNIs ⟨"ns1", "b1"⟩) 42 ∧
      (⟨"ns1", "b1"⟩ : NSN) ∈ (clearVNResources stSeenB vnsB 42).1.queue :=
  (claim9_teardown stSeenB vnsB 42 (by decide)).2.1 "b1" (by decide)

/-! ### Claim C7 — idempotence on a converged attachment -/

/-- C7: on a converged local attachment — the registered LocalIfc carries the
attachment's derived MAC and this node's host IP, no RemoteIfc is registered,
the vnState VNI is current, and `Status.HostIP` already equals this node's
host IP — `processExistingAtt` performs no fabric create or delete, emits no
store UPDATE, and reports success. -/
theorem claim7_converged_idempotent (conf : AgentConf) (env : FabricEnv)
    (updResp : StoreUpdateResult) (st : AgentState) (att : NetworkAttachment)
    (L : LocalNetIfc)
    (hnode : att.spec.node = conf.localNodeName)
    (hvni : getVNStateVNI st (AttNSN att) = some att.status.addressVNI)
    (hL : getLocalIfc st (AttNSN att) = some L)
    (hmac : L.GuestMAC = generateMACAddr att.status.addressVNI att.status.ipv4)
    (hhip : L.HostIP = some conf.hostIP)
    (hr : getRemoteIfc st (AttNSN att) = none)
    (hhost : att.status.hostIP = some conf.hostIP) :
    (processExistingAtt conf env updResp st att).2.1 = [] ∧
    (processExistingAtt conf env updResp st att).2.2 = none := by
  have h1 : updateVNState conf st att.status.addressVNI (AttNSN att) att.spec.node =
      updateVNStateForExistingAtt st (AttNSN att) true att.status.addressVNI := by
    simp only [updateVNState, hvni, ne_eq, not_true_eq_false, if_false, hnode]
    simp
  rw [updateExisting_local_eq] at h1
  have hL' : getLocalIfc
      (setVNStateVNI
        (setVnMap st (aset st.vniToVnState att.status.addressVNI
          (vnAddLocal ((alookup st.vniToVnState att.status.addressVNI).getD
            (initVNState (AttNSN att).ns)) (AttNSN att).name)))
        (AttNSN att) att.status.addressVNI) (AttNSN att) = some L := hL
  have hr' : getRemoteIfc
      (setVNStateVNI
        (setVnMap st (aset st.vniToVnState att.status.addressVNI
          (vnAddLocal ((alookup st.vniToVnState att.status.addressVNI).getD
            (initVNState (AttNSN att).ns)) (AttNSN att).name)))
        (AttNSN att) att.status.addressVNI) (AttNSN att) = none := hr
  have h2 : createOrUpdateIfc conf env
      (setVNStateVNI
        (setVnMap st (aset st.vniToVnState att.status.addressVNI
          (vnAddLocal ((alookup st.vniToVnState att.status.addressVNI).getD
            (initVNState (AttNSN att).ns)) (AttNSN att).name)))
        (AttNSN att) att.status.addressVNI)
      att.status.ipv4 (some conf.hostIP) att.status.addressVNI (AttNSN att) =
      (setVNStateVNI
        (setVnMap st (aset st.vniToVnState att.status.addressVNI
          (vnAddLocal ((alookup st.vniToVnState att.status.addressVNI).getD
            (initVNState (AttNSN att).ns)) (AttNSN att).name)))
        (AttNSN att) att.status.addressVNI, [], Except.ok "") := by
    simp only [createOrUpdateIfc, hL', hr', hmac, hhip, ifcNeedsUpdate]
    simp
  rw [hnode] at h1
  simp only [processExistingAtt, hnode, h1, eq_self_iff_true, if_true, true_and]
  rw [h2]
  simp [hhost]

/-- A converged state for `attLocalConverged` below: its LocalIfc is
registered with the derived MAC and this node's host IP, and the vnState VNI
is current. -/
def attLocalConverged : NetworkAttachment :=
  { meta := ⟨"ns1", "a1", "u1", "9"⟩,
    spec := ⟨"n1", "s1", [], []⟩,
    status := ⟨⟨[], []⟩, "", 42, ipA, "", generateIfcName macA, some hostA, none⟩ }

def stConverged : AgentState :=
  ⟨[(42, ⟨"ns1", false, ["a1"], []⟩)], [(nsnA, 42)], [(nsnA, preLocalA)], [], [], []⟩

/-- C7 witness: the theorem applied to the converged sample state. -/
theorem claim7_converged_idempotent_w :
    (processExistingAtt sampleConf fabricOkEnv StoreUpdateResult.ok stConverged
        attLocalConverged).2.1 = [] ∧
    (processExistingAtt sampleConf fabricOkEnv StoreUpdateResult.ok stConverged
        attLocalConverged).2.2 = none :=
  claim7_converged_idempotent sampleConf fabricOkEnv StoreUpdateResult.ok stConverged
    attLocalConverged preLocalA rfl rfl rfl rfl rfl rfl rfl

/-! ### Claim C4 — an Update conflict is an error, not a success -/

/-- C4 counterexample: a local attachment whose status write-back hits a
conflict.  `processExistingAtt` returns the conflict as an error, and
`processQueueItem` requeues the item with `AddRateLimited` instead of
Forgetting it — the claim's "treat as success, do not requeue" does not hold
on the code. -/
theorem claim4_cex_conflict_requeues :
    (processQueueItem sampleConf cachesLocalA fabricOkEnv StoreUpdateResult.conflict
        initialAgentState nsnA).2.2.1 = some "Update conflict" ∧
    (processQueueItem sampleConf cachesLocalA fabricOkEnv StoreUpdateResult.conflict
        initialAgentState nsnA).2.2.2 = QueueDecision.requeue := by
  constructor <;> rfl

/-- C4 amended: when the status write-back is attempted and the store answers
with a conflict, the reconciler returns the conflict as an error — like any
other store error — and the item is requeued with rate-limited back-off
rather than Forgotten. -/
theorem claim4_conflict_is_error (conf : AgentConf) (env : FabricEnv)
    (st st1 st2 : AgentState) (att : NetworkAttachment) (acts : List Action)
    (name : String)
    (hnode : att.spec.node = conf.localNodeName)
    (h1 : updateVNState conf st att.status.addressVNI (AttNSN att) conf.localNodeName =
      (st1, none, false))
    (h2 : createOrUpdateIfc conf env st1 att.status.ipv4 (some conf.hostIP)
      att.status.addressVNI (AttNSN att) = (st2, acts, Except.ok name))
    (hdiff : att.status.hostIP ≠ some conf.hostIP ∨
      (name ≠ "" ∧ name ≠ att.status.ifcName)) :
    processExistingAtt conf env StoreUpdateResult.conflict st att =
      (st2, acts ++ [Action.storeUpdate (setAttStatusObj conf att name)],
       some "Update conflict") ∧
    ∀ (caches : Caches) (nsn : NSN),
      (getAttachment st caches nsn).1 = some att →
      (processQueueItem conf caches env StoreUpdateResult.conflict st nsn).2.2.2 =
        QueueDecision.requeue := by
  have hmain : processExistingAtt conf env StoreUpdateResult.conflict st att =
      (st2, acts ++ [Action.storeUpdate (setAttStatusObj conf att name)],
       some "Update conflict") := by
    simp only [processExistingAtt, hnode, h1, eq_self_iff_true, if_true, true_and]
    rw [h2]
    simp only [if_pos hdiff]
  refine ⟨hmain, ?_⟩
  intro caches nsn hg
  rcases hga : getAttachment st caches nsn with ⟨oatt, b⟩
  rw [hga] at hg
  simp only at hg
  subst hg
  simp [processQueueItem, processNetworkAttachment, hga, hmain]

/-- The state after the vnState for VNI 42 has been seeded by `attLocalA`. -/
def stV1 : AgentState := ⟨[(42, ⟨"ns1", false, ["a1"], []⟩)], [(nsnA, 42)], [], [], [], []⟩

/-- State `stV1` after the local interface for `attLocalA` has been created. -/
def stV2 : AgentState :=
  ⟨[(42, ⟨"ns1", false, ["a1"], []⟩)], [(nsnA, 42)], [(nsnA, preLocalA)], [], [], []⟩

/-- C4 witness: the amended theorem applied to the sample attachment. -/
theorem claim4_conflict_is_error_w :
    processExistingAtt sampleConf fabricOkEnv StoreUpdateResult.conflict
        initialAgentState attLocalA =
      (stV2,
       [Action.createLocal preLocalA,
        Action.storeUpdate (setAttStatusObj sampleConf attLocalA (generateIfcName macA))],
       some "Update conflict") :=
  (claim4_conflict_is_error sampleConf fabricOkEnv initialAgentState stV1 stV2
    attLocalA [Action.createLocal preLocalA] (generateIfcName macA)
    rfl rfl rfl (Or.inl (by decide))).1

/-! ### Claim C1 — at most one registered interface per identity -/

/-- C1: the startup sync violates the at-most-one-interface invariant.  With
a pre-existing local interface matched to `attLocalA` through the local
cache, and a pre-existing remote interface matched to the same identity
through the remote cache of VNI 42 (the identity being observed by both
streams during the ambiguity window), `syncPreExistingRemoteIfcs` registers
the RemoteIfc and deletes the stale local interface through the fabric — but
never unregisters it, leaving both a LocalIfc and a RemoteIfc registered for
`ns1/a1`. -/
theorem claim1_startup_sync_registers_both :
    alookup (syncPreExistingIfcs cachesC1 [preLocalA] [preRemoteA]
        initialAgentState).1.nsnToLocalIfc nsnA = some preLocalA ∧
    alookup (syncPreExistingIfcs cachesC1 [preLocalA] [preRemoteA]
        initialAgentState).1.nsnToRemoteIfc nsnA = some preRemoteA ∧
    Action.deleteLocal preLocalA ∈
      (syncPreExistingIfcs cachesC1 [preLocalA] [preRemoteA] initialAgentState).2 := by
  refine ⟨rfl, rfl, ?_⟩
  decide

end KosCA
